import Mathlib

/-
Verification of the issue-response-time reporting core
(`src/issueResponseTime.js`).

Shallow embedding conventions:
* JavaScript `Date` values are UTC millisecond timestamps, modelled as `Int`.
  Adding one UTC calendar day (`setUTCDate(getUTCDate() + 1)`) is exactly
  `+ 86400000` milliseconds, since UTC has no daylight-saving shifts.
* `Date.prototype.getUTCDay` is `(t / 86400000 + 4) % 7` with floor division
  (the epoch 1970-01-01 was a Thursday, day-of-week code 4); for a positive
  modulus, Lean's `Int` division/modulo (`Int.ediv`/`Int.emod`) agree with
  the floor semantics used by JavaScript here.
* The GraphQL issue nodes carry `createdAt` together with the `year` and
  `month` fields the script derives from it (`getFullYear()` /
  `getUTCMonth()`, the latter 0-based); the calendar decomposition itself is
  not re-implemented, the data source delivers both views of the timestamp.
* Fallible field accesses are modelled with `Except Unit`: the script reads
  `comment.user.login` without any guard, so a comment whose `user` field is
  absent makes the whole analysis throw; `issue.author?.login || "ghost"`
  by contrast substitutes a sentinel.
* Numeric results (`first_response_time_hours`, `responseRate`) are kept as
  exact rationals; the `toFixed(2)` / `toISOString()` presentation-layer
  string formatting is outside the model.  The `firstResponseTime ? _ : null`
  truthiness test is modelled faithfully: a value of exactly `0` is falsy.
-/

deriving instance DecidableEq for Except

namespace IssueResponseTime

/-- The maintainer login set (`MAINTAINERS` in the script); the JavaScript
`Set` is modelled as a list queried with `contains`. -/
def MAINTAINERS : List String :=
  ["SimiHunjan", "ivaylonikolov7", "venilinvasilev", "andrewb1269hg",
   "0xivanov", "rwalworth", "naydenovn", "nickeynikolovv", "gsstoykov",
   "ivaylogarnev-limechain", "RickyLB", "theekrystallee", "Mark-Swirlds",
   "Neurone", "Reccetech", "kpachhai", "deshmukhpranali", "AliNik4n",
   "jaycoolh", "svienot", "rbarker-dev", "quiet-node", "hendrikebbers",
   "ericleponner", "mgarbs", "nathanklick", "Sheng-Long", "ed-marquez",
   "pathornteng", "steven-sheehy", "Dosik13"]

/-- `const FROM_YEAR = 2025`. -/
def FROM_YEAR : Int := 2025

/-- `const FROM_MONTH = 2` (0-based month index, i.e. March). -/
def FROM_MONTH : Int := 2

/-- Sentinel login substituted when an issue author is unavailable
(`issue.author?.login || "ghost"`). -/
def ghostLogin : String := "ghost"

/-- The string literal `"yes"` stored in `responded_in_48_business_hours`. -/
def yesAnswer : String := "yes"

/-- The string literal `"no"` stored in `responded_in_48_business_hours`. -/
def noAnswer : String := "no"

/-- `date.getUTCDay()` on a millisecond timestamp: 0 = Sunday … 6 = Saturday. -/
def getUTCDay (t : Int) : Int :=
  (t / 86400000 + 4) % 7

/-- `isBusinessDay`: the timestamp's UTC day-of-week is neither Sunday (0)
nor Saturday (6). -/
def isBusinessDay (t : Int) : Bool :=
  getUTCDay t != 0 && getUTCDay t != 6

/-- The `while (current <= end)` loop of `businessDaysBetween`, with explicit
fuel.  Each iteration tests the current timestamp, counts it when it is a
business day, and advances by one UTC calendar day (86400000 ms). -/
def bdbGo : Nat → Int → Int → Nat
  | 0, _, _ => 0
  | fuel + 1, current, e =>
    if current ≤ e then
      (if isBusinessDay current then 1 else 0) + bdbGo fuel (current + 86400000) e
    else 0

/-- `businessDaysBetween(start, end)`.  The fuel `(end - start).toNat / 86400000 + 1`
is exactly the number of loop iterations whose guard `current <= end` holds
(the guard fails for the first time precisely when the fuel runs out), so the
fuelled loop computes the same count as the JavaScript `while` loop. -/
def businessDaysBetween (start e : Int) : Nat :=
  bdbGo ((e - start).toNat / 86400000 + 1) start e

/-- One GraphQL issue node as delivered by the issue data source, together
with the calendar fields the script derives from `createdAt`
(`getFullYear()` and `getUTCMonth()`, assuming a UTC runtime). -/
structure IssueNode where
  number : Nat
  title : String
  createdAt : Int
  year : Int
  month : Int
  author : Option String
deriving DecidableEq

/-- An issue as retained by `getAllIssues` (the object pushed onto `issues`). -/
structure Issue where
  number : Nat
  title : String
  created_at : Int
  author : String
deriving DecidableEq

/-- The object literal pushed by `getAllIssues`, with the
`issue.author?.login || "ghost"` sentinel substitution. -/
def mkIssue (n : IssueNode) : Issue :=
  { number := n.number
    title := n.title
    created_at := n.createdAt
    author := n.author.getD ghostLogin }

/-- The `for (const issue of result.nodes)` loop body of `getAllIssues`:
retain the node when `year === FROM_YEAR && month >= FROM_MONTH`; `break`
(dropping the rest of the page) when the creation month is strictly before
the cutoff; otherwise fall through to the next node without retaining. -/
def pageScan : List IssueNode → List Issue
  | [] => []
  | n :: rest =>
    if n.year = FROM_YEAR ∧ FROM_MONTH ≤ n.month then
      mkIssue n :: pageScan rest
    else if n.year < FROM_YEAR ∨ (n.year = FROM_YEAR ∧ n.month < FROM_MONTH) then
      []
    else
      pageScan rest

/-- `getAllIssues`, over the finite sequence of pages the data source would
deliver on successive cursor requests.  Note that the early-stop `break` sets
`hasNextPage = false` but the assignment `hasNextPage = result.pageInfo.hasNextPage`
immediately after the `for` loop overwrites it, so the `while` loop visits
every delivered page; the `break` only drops the remainder of the current
page. -/
def getAllIssues (pages : List (List IssueNode)) : List Issue :=
  (pages.map pageScan).flatten

/-- One REST comment as consumed by `calculateFirstResponseTimes`: the script
reads `comment.user.login` (no sentinel fallback) and `comment.created_at`. -/
structure Comment where
  user : Option String
  created_at : Int
deriving DecidableEq

/-- The comment scan of `calculateFirstResponseTimes`: walk the comments in
delivered order and stop at the first one whose author is a maintainer other
than the issue author.  Reading `comment.user.login` on a comment with no
`user` throws, modelled as `Except.error ()`. -/
def findFirstResponse (author : String) : List Comment → Except Unit (Option Comment)
  | [] => Except.ok none
  | c :: rest =>
    match c.user with
    | none => Except.error ()
    | some commenter =>
      if MAINTAINERS.contains commenter && commenter != author then
        Except.ok (some c)
      else
        findFirstResponse author rest

/-- One row of the per-issue report (`results.push({...})`).
`first_response_time_hours` keeps the exact rational number of hours; the
`toFixed(2)` string rendering is presentation only.  `created_at` keeps the
timestamp (`toISOString()` rendering likewise omitted). -/
structure Row where
  repo : String
  issue_number : Nat
  title : String
  author : String
  created_at : Int
  first_response_time_hours : Option ℚ
  responded_in_48_business_hours : Option String
deriving DecidableEq

/-- The per-issue body of `calculateFirstResponseTimes`: scan the comments,
and build the result row.  `firstResponseTime` is `(commentedAt - createdAt)`
in hours; the field is stored through the truthiness test
`firstResponseTime ? firstResponseTime.toFixed(2) : null`, under which an
exactly-zero response time is falsy and stored as `null`. -/
def processIssue (repo : String) (commentsFor : Nat → List Comment) (i : Issue) :
    Except Unit Row :=
  match findFirstResponse i.author (commentsFor i.number) with
  | Except.error e => Except.error e
  | Except.ok none =>
    Except.ok
      { repo := repo
        issue_number := i.number
        title := i.title
        author := i.author
        created_at := i.created_at
        first_response_time_hours := none
        responded_in_48_business_hours := none }
  | Except.ok (some c) =>
    Except.ok
      { repo := repo
        issue_number := i.number
        title := i.title
        author := i.author
        created_at := i.created_at
        first_response_time_hours :=
          if ((c.created_at - i.created_at : Int) : ℚ) / 3600000 = 0 then none
          else some (((c.created_at - i.created_at : Int) : ℚ) / 3600000)
        responded_in_48_business_hours :=
          some (if businessDaysBetween i.created_at c.created_at ≤ 2 then yesAnswer
                else noAnswer) }

/-- The `for (const issue of issues)` loop of `calculateFirstResponseTimes`:
issues authored by maintainers are skipped (`continue`), every other issue
contributes one row in traversal order. -/
def buildRows (repo : String) (commentsFor : Nat → List Comment) :
    List Issue → Except Unit (List Row)
  | [] => Except.ok []
  | i :: rest =>
    if MAINTAINERS.contains i.author then
      buildRows repo commentsFor rest
    else
      match processIssue repo commentsFor i with
      | Except.error e => Except.error e
      | Except.ok r =>
        match buildRows repo commentsFor rest with
        | Except.error e => Except.error e
        | Except.ok rs => Except.ok (r :: rs)

/-- The per-repository summary (`{ repo, totalIssues, responded, responseRate }`).
`responseRate` keeps the exact rational percentage; the `toFixed(2)` /
`"100.00"` string rendering is presentation only. -/
structure Summary where
  repo : String
  totalIssues : Nat
  responded : Nat
  responseRate : ℚ
deriving DecidableEq

/-- The summary computation at the end of `calculateFirstResponseTimes`:
`totalIssues = results.length`, `responded` counts the rows whose
`responded_in_48_business_hours` is not `null`, and the response rate is
100 for an empty repository and `responded / totalIssues * 100` otherwise. -/
def mkSummary (repo : String) (results : List Row) : Summary :=
  { repo := repo
    totalIssues := results.length
    responded := (results.filter
      (fun r => r.responded_in_48_business_hours ≠ none)).length
    responseRate :=
      if results.length = 0 then 100
      else (((results.filter
              (fun r => r.responded_in_48_business_hours ≠ none)).length : ℚ) /
            (results.length : ℚ)) * 100 }

/-- `calculateFirstResponseTimes(owner, repo)`, over the pages the issue data
source delivers and the comment lists the comment data source delivers per
issue number. -/
def calculateFirstResponseTimes (repo : String) (pages : List (List IssueNode))
    (commentsFor : Nat → List Comment) : Except Unit (List Row × Summary) :=
  match buildRows repo commentsFor (getAllIssues pages) with
  | Except.error e => Except.error e
  | Except.ok results => Except.ok (results, mkSummary repo results)

/-- One configured repository together with the data its sources would
deliver: the issue pages and the comment list per issue number. -/
structure RepoInput where
  repo : String
  pages : List (List IssueNode)
  commentsFor : Nat → List Comment

/-- The per-repository analysis invoked by `runAll`. -/
def analyze (r : RepoInput) : Except Unit (List Row × Summary) :=
  calculateFirstResponseTimes r.repo r.pages r.commentsFor

/-- The `for (const { owner, repo } of REPOS)` loop of `runAll`, with its two
accumulators `allResults` and `overallSummary`. -/
def runAllGo : List RepoInput → List Row → List Summary →
    Except Unit (List Row × List Summary)
  | [], allResults, overallSummary => Except.ok (allResults, overallSummary)
  | r :: rest, allResults, overallSummary =>
    match analyze r with
    | Except.error e => Except.error e
    | Except.ok (rows, s) => runAllGo rest (allResults ++ rows) (overallSummary ++ [s])

/-- `runAll()`: sequential analysis of the configured repositories. -/
def runAll (repos : List RepoInput) : Except Unit (List Row × List Summary) :=
  runAllGo repos [] []

/-- Business-day test on a day index (number of whole UTC days since the
epoch); `isBusinessDay t` is exactly `isBusinessDayIndex` of `t`'s day
index. -/
def isBusinessDayIndex (d : Int) : Bool :=
  (d + 4) % 7 != 0 && (d + 4) % 7 != 6

/-- Number of business days among the `n` consecutive day indices starting
at `d`. -/
def countBusinessIdx : Int → Nat → Nat
  | _, 0 => 0
  | d, n + 1 => (if isBusinessDayIndex d then 1 else 0) + countBusinessIdx (d + 1) n

/-- The count described by the spec sentence for `businessDaysBetween`:
the number of calendar days in the inclusive range `[start, end]`, taken at
day granularity (i.e. the day indices from `start`'s UTC day to `end`'s UTC
day), whose UTC day-of-week is Monday through Friday.  Stated from the
spec's words, to be compared against the implementation. -/
def specBusinessDayCount (s e : Int) : Nat :=
  if s ≤ e then
    countBusinessIdx (s / 86400000) ((e / 86400000 - s / 86400000).toNat + 1)
  else 0

/-- The spec-side first-response selection predicate: the comment's author is
a maintainer and differs from the issue's author (a comment with no author
identity never qualifies). -/
def qualifies (author : String) (c : Comment) : Bool :=
  match c.user with
  | some u => MAINTAINERS.contains u && u != author
  | none => false

/-- The spec-side first-response selection: the first comment, in delivered
order, whose author is a maintainer other than the issue's author. -/
def firstQualifying (author : String) (cs : List Comment) : Option Comment :=
  cs.find? (qualifies author)

/-! Concrete inputs used by the evaluation theorems and witnesses. -/

def repoA : String := "repo-a"

def aliceLogin : String := "alice"

def bobLogin : String := "bob"

def simiLogin : String := "SimiHunjan"

def ivayloLogin : String := "ivaylonikolov7"

/-- An issue node created in January 2026: strictly after the cutoff
boundary, yet outside the retain branch of `getAllIssues`. -/
def c1Node : IssueNode :=
  { number := 1, title := "created in January 2026", createdAt := 1767225600000,
    year := 2026, month := 0, author := some aliceLogin }

/-- A community issue whose first maintainer comment carries the same
timestamp as the issue creation (response time exactly zero hours). -/
def c3Node : IssueNode :=
  { number := 7, title := "zero hour response", createdAt := 1741000000000,
    year := 2025, month := 2, author := some aliceLogin }

def c3CommentsFor : Nat → List Comment :=
  fun _ => [{ user := some simiLogin, created_at := 1741000000000 }]

/-- The row the pipeline produces for `c3Node`: the zero-hour response time
is falsy, so the hours field is `null` while the SLA field is `"yes"`. -/
def c3Row : Row :=
  { repo := repoA, issue_number := 7, title := "zero hour response",
    author := aliceLogin, created_at := 1741000000000,
    first_response_time_hours := none,
    responded_in_48_business_hours := some yesAnswer }

/-- An issue authored by a maintainer who also comments on it first. -/
def c4Issue : Issue :=
  { number := 3, title := "self comment first", created_at := 1741000000000,
    author := simiLogin }

def c4CommentA : Comment := { user := some simiLogin, created_at := 1741003600000 }

def c4CommentB : Comment := { user := some ivayloLogin, created_at := 1741007200000 }

def c4CommentsFor : Nat → List Comment := fun _ => [c4CommentA, c4CommentB]

def c5Issue : Issue :=
  { number := 5, title := "sla check", created_at := 1741000000000,
    author := aliceLogin }

def c5Comment : Comment := { user := some simiLogin, created_at := 1741003600000 }

def c5CommentsFor : Nat → List Comment := fun _ => [c5Comment]

def c6NodeM : IssueNode :=
  { number := 1, title := "by maintainer", createdAt := 1741100000000,
    year := 2025, month := 2, author := some simiLogin }

def c6NodeC : IssueNode :=
  { number := 2, title := "by community", createdAt := 1741000000000,
    year := 2025, month := 2, author := some bobLogin }

def c6Pages : List (List IssueNode) := [[c6NodeM, c6NodeC]]

def c6CommentsFor : Nat → List Comment := fun _ => []

def c6Row : Row :=
  { repo := repoA, issue_number := 2, title := "by community",
    author := bobLogin, created_at := 1741000000000,
    first_response_time_hours := none,
    responded_in_48_business_hours := none }

def c6Rows : List Row := [c6Row]

def c7NodeA : IssueNode :=
  { number := 1, title := "answered", createdAt := 1741100000000,
    year := 2025, month := 2, author := some bobLogin }

def c7NodeB : IssueNode :=
  { number := 2, title := "unanswered", createdAt := 1741000000000,
    year := 2025, month := 2, author := some aliceLogin }

def c7Pages : List (List IssueNode) := [[c7NodeA, c7NodeB]]

def c7Comment : Comment := { user := some simiLogin, created_at := 1741103600000 }

def c7CommentsFor : Nat → List Comment := fun k => if k = 1 then [c7Comment] else []

def c7Row1 : Row :=
  { repo := repoA, issue_number := 1, title := "answered",
    author := bobLogin, created_at := 1741100000000,
    first_response_time_hours := some 1,
    responded_in_48_business_hours := some yesAnswer }

def c7Row2 : Row :=
  { repo := repoA, issue_number := 2, title := "unanswered",
    author := aliceLogin, created_at := 1741000000000,
    first_response_time_hours := none,
    responded_in_48_business_hours := none }

def c7Rows : List Row := [c7Row1, c7Row2]

/-- A community issue one of whose comments is missing its `user` field. -/
def c8Node : IssueNode :=
  { number := 4, title := "bad comment", createdAt := 1741000000000,
    year := 2025, month := 2, author := some aliceLogin }

def c8CommentsFor : Nat → List Comment :=
  fun _ => [{ user := none, created_at := 1741003600000 }]

/-- An issue node with no author identity. -/
def c8gNode : IssueNode :=
  { number := 6, title := "ghost author", createdAt := 1741000000000,
    year := 2025, month := 2, author := none }

def c8gCommentsFor : Nat → List Comment := fun _ => []

def c9RepoOne : RepoInput :=
  { repo := "repo-one", pages := [], commentsFor := fun _ => [] }

def c9RepoTwo : RepoInput :=
  { repo := "repo-two", pages := [], commentsFor := fun _ => [] }

def c9SummaryOne : Summary :=
  { repo := "repo-one", totalIssues := 0, responded := 0, responseRate := 100 }

def c9SummaryTwo : Summary :=
  { repo := "repo-two", totalIssues := 0, responded := 0, responseRate := 100 }

/-- An issue whose first maintainer comment is dated one hour before the
issue itself. -/
def c10Issue : Issue :=
  { number := 9, title := "pre-dated comment", created_at := 1741003600000,
    author := aliceLogin }

def c10Comment : Comment := { user := some simiLogin, created_at := 1741000000000 }

def c10CommentsFor : Nat → List Comment := fun _ => [c10Comment]

/-! Helper lemmas about the business-day loop. -/

theorem isBusinessDay_eq_idx (t : Int) :
    isBusinessDay t = isBusinessDayIndex (t / 86400000) := rfl

theorem countBusinessIdx_zero (d : Int) : countBusinessIdx d 0 = 0 := rfl

theorem countBusinessIdx_succ (d : Int) (n : Nat) :
    countBusinessIdx d (n + 1) =
      (if isBusinessDayIndex d then 1 else 0) + countBusinessIdx (d + 1) n := rfl

/-- When `start > end` the loop guard fails on the first test and the count
is 0. -/
theorem businessDaysBetween_of_gt (s e : Int) (h : e < s) :
    businessDaysBetween s e = 0 := by
  unfold businessDaysBetween
  have h0 : (e - s).toNat = 0 := by omega
  rw [h0]
  show bdbGo (0 / 86400000 + 1) s e = 0
  rw [Nat.zero_div]
  show bdbGo 1 s e = 0
  unfold bdbGo
  rw [if_neg (show ¬ s ≤ e by omega)]

/-- One unrolling of the `while` loop: the fuel bookkeeping of
`businessDaysBetween` matches the loop guard exactly. -/
theorem businessDaysBetween_step (s e : Int) (h : s ≤ e) :
    businessDaysBetween s e =
      (if isBusinessDay s then 1 else 0) +
        (if s + 86400000 ≤ e then businessDaysBetween (s + 86400000) e else 0) := by
  unfold businessDaysBetween
  by_cases hD : s + 86400000 ≤ e
  · have h1 : (e - s).toNat / 86400000 + 1 =
        ((e - (s + 86400000)).toNat / 86400000 + 1) + 1 := by omega
    rw [h1, if_pos hD]
    show bdbGo (((e - (s + 86400000)).toNat / 86400000 + 1) + 1) s e = _
    conv_lhs => rw [bdbGo]
    rw [if_pos h]
  · have h1 : (e - s).toNat / 86400000 = 0 := by omega
    rw [h1, if_neg hD]
    show bdbGo 1 s e = _
    unfold bdbGo
    rw [if_pos h]
    show (if isBusinessDay s then 1 else 0) + bdbGo 0 (s + 86400000) e = _
    rfl

/-- The loop count agrees with the day-granularity calendar count whenever
`end`'s UTC time-of-day is at least `start`'s (induction over the number of
days between the two instants). -/
theorem bdb_eq_specCount : ∀ n : Nat, ∀ s e : Int, (e - s).toNat ≤ n → s ≤ e →
    s % 86400000 ≤ e % 86400000 →
    businessDaysBetween s e = specBusinessDayCount s e := by
  intro n
  induction n with
  | zero =>
    intro s e hle hse hmod
    have he : e = s := by omega
    subst he
    rw [businessDaysBetween_step e e le_rfl,
      if_neg (show ¬ e + 86400000 ≤ e by omega)]
    unfold specBusinessDayCount
    rw [if_pos le_rfl]
    have h0 : (e / 86400000 - e / 86400000).toNat = 0 := by omega
    rw [h0, countBusinessIdx_succ, countBusinessIdx_zero, isBusinessDay_eq_idx]
  | succ n ih =>
    intro s e hle hse hmod
    by_cases hD : s + 86400000 ≤ e
    · rw [businessDaysBetween_step s e hse, if_pos hD,
        ih (s + 86400000) e (by omega) hD (by omega)]
      simp only [specBusinessDayCount]
      rw [if_pos hse, if_pos hD]
      have h1 : (e / 86400000 - s / 86400000).toNat + 1 =
          ((e / 86400000 - (s + 86400000) / 86400000).toNat + 1) + 1 := by omega
      conv_rhs => rw [h1, countBusinessIdx_succ]
      rw [isBusinessDay_eq_idx,
        show (s + 86400000) / 86400000 = s / 86400000 + 1 by omega]
    · rw [businessDaysBetween_step s e hse, if_neg hD]
      unfold specBusinessDayCount
      rw [if_pos hse]
      have h1 : (e / 86400000 - s / 86400000).toNat = 0 := by omega
      rw [h1, countBusinessIdx_succ, countBusinessIdx_zero, isBusinessDay_eq_idx]

/-- C1: an issue delivered with creation year 2026, month index 0 is at or
after the cutoff (2025, month index 2), yet `getAllIssues` retains nothing
from it: the retain branch requires `year === FROM_YEAR`, so creation years
after 2025 match neither the retain branch nor the stop branch and the issue
is silently dropped, contradicting the script's own comments that issues
created from March 2025 onwards are included. -/
theorem getAllIssues_drops_issue_after_cutoff_year :
    (FROM_YEAR < c1Node.year ∨ (c1Node.year = FROM_YEAR ∧ FROM_MONTH ≤ c1Node.month)) ∧
    getAllIssues [[c1Node]] = [] := by decide

/-- C2 (counterexample): an issue created Friday 17:00 UTC with the first
maintainer comment the following Monday 09:00 UTC.  The loop steps from the
start instant in whole days, and Monday 17:00 is already past the end
instant, so the count is 1 — not the 2 (Friday and Monday) the claim
requires for a Friday start with the following Monday as end. -/
theorem businessDaysBetween_friday_monday_ne_two :
    getUTCDay 147600000 = 5 ∧ getUTCDay 378000000 = 1 ∧
    (147600000 : Int) ≤ 378000000 ∧
    businessDaysBetween 147600000 378000000 = 1 ∧
    businessDaysBetween 147600000 378000000 ≠ 2 := by decide

/-- C2 (amended): `businessDaysBetween start end` returns 0 whenever
`start > end`; when `start ≤ end` and the UTC time-of-day of `end` is at
least that of `start`, it equals the number of Monday-through-Friday
calendar days, at day granularity, in the inclusive range `[start, end]`
(in particular 1 when both fall on the same business day).  When `end`'s
time-of-day is earlier than `start`'s, the final calendar day is not
counted. -/
theorem businessDaysBetween_eq_specBusinessDayCount (s e : Int) :
    (e < s → businessDaysBetween s e = 0) ∧
    (s ≤ e → s % 86400000 ≤ e % 86400000 →
      businessDaysBetween s e = specBusinessDayCount s e) ∧
    (s ≤ e → s / 86400000 = e / 86400000 → isBusinessDay s = true →
      businessDaysBetween s e = 1) := by
  refine ⟨businessDaysBetween_of_gt s e, ?_, ?_⟩
  · intro h1 h2
    exact bdb_eq_specCount (e - s).toNat s e le_rfl h1 h2
  · intro h1 h2 h3
    have hmod : s % 86400000 ≤ e % 86400000 := by omega
    rw [bdb_eq_specCount (e - s).toNat s e le_rfl h1 hmod]
    unfold specBusinessDayCount
    rw [if_pos h1]
    have h0 : (e / 86400000 - s / 86400000).toNat = 0 := by omega
    rw [h0, countBusinessIdx_succ, countBusinessIdx_zero]
    have hb : isBusinessDayIndex (s / 86400000) = true := by
      rw [← isBusinessDay_eq_idx]; exact h3
    rw [hb]
    rfl

theorem businessDaysBetween_eq_specBusinessDayCount_witness :
    (147600000 : Int) ≤ 410400000 ∧
    (147600000 : Int) % 86400000 ≤ (410400000 : Int) % 86400000 ∧
    businessDaysBetween 147600000 410400000 = specBusinessDayCount 147600000 410400000 ∧
    businessDaysBetween 147600000 410400000 = 2 :=
  ⟨by decide, by decide,
    (businessDaysBetween_eq_specBusinessDayCount 147600000 410400000).2.1
      (by decide) (by decide),
    by decide⟩

/-- C3: with a qualifying maintainer comment at exactly the issue's creation
instant, the produced row has `first_response_time_hours = null` (the
truthiness test `firstResponseTime ? ... : null` treats the number 0 as
falsy) while `responded_in_48_business_hours = "yes"` is non-null —
violating the invariant that the two fields are null together. -/
theorem zero_hour_response_null_mismatch :
    calculateFirstResponseTimes repoA [[c3Node]] c3CommentsFor =
      Except.ok ([c3Row], mkSummary repoA [c3Row]) ∧
    c3Row.first_response_time_hours = none ∧
    c3Row.responded_in_48_business_hours = some yesAnswer :=
  ⟨by with_unfolding_all rfl, rfl, rfl⟩

/-- On a comment list whose entries all carry an author identity, the comment
scan cannot throw and returns exactly the first qualifying comment. -/
theorem findFirstResponse_ok (author : String) :
    ∀ cs : List Comment, (∀ c ∈ cs, (c.user).isSome = true) →
      findFirstResponse author cs = Except.ok (firstQualifying author cs) := by
  intro cs
  induction cs with
  | nil => intro _; rfl
  | cons c rest ih =>
    intro h
    have hc : (c.user).isSome = true := h c (List.mem_cons_self c rest)
    have hrest : ∀ x ∈ rest, (x.user).isSome = true := by
      intro x hx
      exact h x (List.mem_cons_of_mem c hx)
    match hu : c.user with
    | none => rw [hu] at hc; simp at hc
    | some u =>
      have hq1 : qualifies author c = (MAINTAINERS.contains u && u != author) := by
        unfold qualifies
        rw [hu]
      unfold findFirstResponse firstQualifying
      rw [hu]
      dsimp only
      by_cases hq : (MAINTAINERS.contains u && u != author) = true
      · rw [if_pos hq, List.find?_cons_of_pos _ (by rw [hq1]; exact hq)]
      · rw [if_neg hq, List.find?_cons_of_neg _ (by rw [hq1]; exact hq)]
        exact ih hrest

/-- C4: for a candidate issue whose comments all carry an author identity,
the recorded first maintainer response is exactly the first comment, in
delivered order, whose author is a maintainer other than the issue's author
(comments by the issue's own author are skipped even when that author is a
maintainer, since `qualifies` requires the commenter to differ from the
author); when no comment qualifies, the produced row has both
`first_response_time_hours` and `responded_in_48_business_hours` null. -/
theorem firstResponse_eq_firstQualifying (repo : String) (cf : Nat → List Comment)
    (i : Issue) (hw : ∀ c ∈ cf i.number, (c.user).isSome = true) :
    findFirstResponse i.author (cf i.number) =
      Except.ok (firstQualifying i.author (cf i.number)) ∧
    (firstQualifying i.author (cf i.number) = none →
      processIssue repo cf i = Except.ok
        { repo := repo, issue_number := i.number, title := i.title,
          author := i.author, created_at := i.created_at,
          first_response_time_hours := none,
          responded_in_48_business_hours := none }) := by
  have h1 := findFirstResponse_ok i.author (cf i.number) hw
  refine ⟨h1, ?_⟩
  intro hnone
  unfold processIssue
  rw [h1, hnone]

theorem firstResponse_eq_firstQualifying_witness :
    (∀ c ∈ c4CommentsFor c4Issue.number, (c.user).isSome = true) ∧
    findFirstResponse c4Issue.author (c4CommentsFor c4Issue.number) =
      Except.ok (firstQualifying c4Issue.author (c4CommentsFor c4Issue.number)) ∧
    firstQualifying c4Issue.author (c4CommentsFor c4Issue.number) = some c4CommentB :=
  ⟨by decide,
    (firstResponse_eq_firstQualifying repoA c4CommentsFor c4Issue (by decide)).1,
    by decide⟩

/-- C5: for an issue whose comment scan yields a qualifying first maintainer
comment `c`, the produced row's SLA classification is `"yes"` exactly when
`businessDaysBetween` of the issue's creation time and `c`'s creation time
is at most 2, and `"no"` exactly otherwise. -/
theorem sla_yes_iff_businessDays_le_two (repo : String) (cf : Nat → List Comment)
    (i : Issue) (c : Comment)
    (hf : findFirstResponse i.author (cf i.number) = Except.ok (some c)) :
    ∃ r, processIssue repo cf i = Except.ok r ∧
      (r.responded_in_48_business_hours = some yesAnswer ↔
        businessDaysBetween i.created_at c.created_at ≤ 2) ∧
      (r.responded_in_48_business_hours = some noAnswer ↔
        ¬ businessDaysBetween i.created_at c.created_at ≤ 2) := by
  unfold processIssue
  rw [hf]
  by_cases hb : businessDaysBetween i.created_at c.created_at ≤ 2
  · refine ⟨_, rfl, ?_, ?_⟩
    · dsimp only
      rw [if_pos hb]
      exact ⟨fun _ => hb, fun _ => rfl⟩
    · dsimp only
      rw [if_pos hb]
      constructor
      · intro h2
        injection h2 with h3
        exact absurd h3 (by decide)
      · intro h2
        exact absurd hb h2
  · refine ⟨_, rfl, ?_, ?_⟩
    · dsimp only
      rw [if_neg hb]
      constructor
      · intro h2
        injection h2 with h3
        exact absurd h3 (by decide)
      · intro h2
        exact absurd h2 hb
    · dsimp only
      rw [if_neg hb]
      exact ⟨fun _ => hb, fun _ => rfl⟩

theorem sla_yes_iff_businessDays_le_two_witness :
    findFirstResponse c5Issue.author (c5CommentsFor c5Issue.number) =
      Except.ok (some c5Comment) ∧
    (∃ r, processIssue repoA c5CommentsFor c5Issue = Except.ok r ∧
      (r.responded_in_48_business_hours = some yesAnswer ↔
        businessDaysBetween c5Issue.created_at c5Comment.created_at ≤ 2) ∧
      (r.responded_in_48_business_hours = some noAnswer ↔
        ¬ businessDaysBetween c5Issue.created_at c5Comment.created_at ≤ 2)) :=
  ⟨by decide,
    sla_yes_iff_businessDays_le_two repoA c5CommentsFor c5Issue c5Comment (by decide)⟩

/-- C10: for a candidate issue whose first qualifying maintainer comment is
dated strictly before the issue's creation time, the loop guard of
`businessDaysBetween` fails immediately (count 0, which is at most 2), so
the produced row records SLA `"yes"` together with a negative, non-null
hours value, and no error is raised. -/
theorem earlier_comment_yields_yes_and_negative_hours (repo : String)
    (cf : Nat → List Comment) (i : Issue) (c : Comment)
    (hf : findFirstResponse i.author (cf i.number) = Except.ok (some c))
    (hlt : c.created_at < i.created_at) :
    ∃ r, processIssue repo cf i = Except.ok r ∧
      businessDaysBetween i.created_at c.created_at = 0 ∧
      r.responded_in_48_business_hours = some yesAnswer ∧
      ∃ q : ℚ, r.first_response_time_hours = some q ∧ q < 0 := by
  have hbd : businessDaysBetween i.created_at c.created_at = 0 :=
    businessDaysBetween_of_gt i.created_at c.created_at hlt
  have hz : (c.created_at - i.created_at : Int) < 0 := by omega
  have hneg : ((c.created_at - i.created_at : Int) : ℚ) / 3600000 < 0 := by
    apply div_neg_of_neg_of_pos
    · exact_mod_cast hz
    · norm_num
  unfold processIssue
  rw [hf]
  refine ⟨_, rfl, hbd, ?_, ?_⟩
  · dsimp only
    rw [hbd, if_pos (by norm_num)]
  · dsimp only
    rw [if_neg (ne_of_lt hneg)]
    exact ⟨_, rfl, hneg⟩

theorem earlier_comment_yields_yes_and_negative_hours_witness :
    c10Comment.created_at < c10Issue.created_at ∧
    (∃ r, processIssue repoA c10CommentsFor c10Issue = Except.ok r ∧
      businessDaysBetween c10Issue.created_at c10Comment.created_at = 0 ∧
      r.responded_in_48_business_hours = some yesAnswer ∧
      ∃ q : ℚ, r.first_response_time_hours = some q ∧ q < 0) :=
  ⟨by decide,
    earlier_comment_yields_yes_and_negative_hours repoA c10CommentsFor c10Issue
      c10Comment (by decide) (by decide)⟩

/-- A successfully produced row carries the author of the issue it was built
from. -/
theorem processIssue_ok_author (repo : String) (cf : Nat → List Comment)
    (i : Issue) (r : Row) (h : processIssue repo cf i = Except.ok r) :
    r.author = i.author := by
  unfold processIssue at h
  cases hf : findFirstResponse i.author (cf i.number) with
  | error e => rw [hf] at h; exact Except.noConfusion h
  | ok o =>
    rw [hf] at h
    cases o with
    | none =>
      injection h with h1
      rw [← h1]
    | some c =>
      injection h with h1
      rw [← h1]

/-- No row produced by the issue loop has a maintainer author. -/
theorem buildRows_authors (repo : String) (cf : Nat → List Comment) :
    ∀ issues rows, buildRows repo cf issues = Except.ok rows →
      ∀ r ∈ rows, MAINTAINERS.contains r.author = false := by
  intro issues
  induction issues with
  | nil =>
    intro rows h r hr
    injection h with h1
    rw [← h1] at hr
    simp at hr
  | cons i rest ih =>
    intro rows h r hr
    unfold buildRows at h
    by_cases hm : MAINTAINERS.contains i.author = true
    · rw [if_pos hm] at h
      exact ih rows h r hr
    · rw [if_neg hm] at h
      cases hp : processIssue repo cf i with
      | error e => rw [hp] at h; exact Except.noConfusion h
      | ok r0 =>
        rw [hp] at h
        cases hb : buildRows repo cf rest with
        | error e => rw [hb] at h; exact Except.noConfusion h
        | ok rs =>
          rw [hb] at h
          injection h with h1
          rw [← h1] at hr
          rcases List.mem_cons.mp hr with h2 | h2
          · rw [h2, processIssue_ok_author repo cf i r0 hp]
            simpa using hm
          · exact ih rs hb r h2

/-- C6: whenever the analysis succeeds, every produced row has an author
outside the maintainer set (issues authored by maintainers are skipped
before any row is pushed), and the summary's `totalIssues` counts exactly
the produced rows, so excluded issues are not counted. -/
theorem maintainer_authored_issues_excluded (repo : String)
    (pages : List (List IssueNode)) (cf : Nat → List Comment)
    (rows : List Row) (s : Summary)
    (h : calculateFirstResponseTimes repo pages cf = Except.ok (rows, s)) :
    (∀ r ∈ rows, MAINTAINERS.contains r.author = false) ∧
    s.totalIssues = rows.length := by
  unfold calculateFirstResponseTimes at h
  cases hb : buildRows repo cf (getAllIssues pages) with
  | error e => rw [hb] at h; exact Except.noConfusion h
  | ok results =>
    rw [hb] at h
    injection h with h1
    injection h1 with h2 h3
    subst h2
    subst h3
    exact ⟨buildRows_authors repo cf (getAllIssues pages) results hb, rfl⟩

theorem maintainer_authored_issues_excluded_witness :
    calculateFirstResponseTimes repoA c6Pages c6CommentsFor =
      Except.ok (c6Rows, mkSummary repoA c6Rows) ∧
    ((∀ r ∈ c6Rows, MAINTAINERS.contains r.author = false) ∧
      (mkSummary repoA c6Rows).totalIssues = c6Rows.length) :=
  ⟨by with_unfolding_all rfl,
    maintainer_authored_issues_excluded repoA c6Pages c6CommentsFor c6Rows
      (mkSummary repoA c6Rows) (by with_unfolding_all rfl)⟩

/-- C7: whenever the analysis succeeds, the summary satisfies
`totalIssues = rows.length`, `responded` counts the rows with a non-null SLA
classification (hence `responded ≤ totalIssues`), and the response rate is
100 for an empty row list and `responded / totalIssues * 100` otherwise
(kept as an exact rational; the two-decimal string rendering is
presentation). -/
theorem summary_aggregates_rows (repo : String) (pages : List (List IssueNode))
    (cf : Nat → List Comment) (rows : List Row) (s : Summary)
    (h : calculateFirstResponseTimes repo pages cf = Except.ok (rows, s)) :
    s.totalIssues = rows.length ∧
    s.responded = (rows.filter
      (fun r => r.responded_in_48_business_hours ≠ none)).length ∧
    s.responded ≤ s.totalIssues ∧
    s.responseRate = (if s.totalIssues = 0 then (100 : ℚ)
      else ((s.responded : ℚ) / (s.totalIssues : ℚ)) * 100) := by
  unfold calculateFirstResponseTimes at h
  cases hb : buildRows repo cf (getAllIssues pages) with
  | error e => rw [hb] at h; exact Except.noConfusion h
  | ok results =>
    rw [hb] at h
    injection h with h1
    injection h1 with h2 h3
    subst h2
    subst h3
    exact ⟨rfl, rfl, List.length_filter_le _ _, rfl⟩

theorem summary_aggregates_rows_witness :
    calculateFirstResponseTimes repoA c7Pages c7CommentsFor =
      Except.ok (c7Rows, mkSummary repoA c7Rows) ∧
    ((mkSummary repoA c7Rows).totalIssues = c7Rows.length ∧
      (mkSummary repoA c7Rows).responded = (c7Rows.filter
        (fun r => r.responded_in_48_business_hours ≠ none)).length ∧
      (mkSummary repoA c7Rows).responded ≤ (mkSummary repoA c7Rows).totalIssues ∧
      (mkSummary repoA c7Rows).responseRate =
        (if (mkSummary repoA c7Rows).totalIssues = 0 then (100 : ℚ)
          else (((mkSummary repoA c7Rows).responded : ℚ) /
            ((mkSummary repoA c7Rows).totalIssues : ℚ)) * 100)) :=
  ⟨by with_unfolding_all rfl,
    summary_aggregates_rows repoA c7Pages c7CommentsFor c7Rows
      (mkSummary repoA c7Rows) (by with_unfolding_all rfl)⟩

/-- C8 (counterexample): on a community issue whose only comment is missing
its `user` field, the analysis reads `comment.user.login` without any guard
and throws — it does not substitute a sentinel for the missing comment
author, so missing fields are not in general handled by sentinel
substitution. -/
theorem missing_comment_user_errors :
    calculateFirstResponseTimes repoA [[c8Node]] c8CommentsFor =
      Except.error () := by decide

/-- C8 (amended): a missing issue author is substituted with the sentinel
`"ghost"` and the analysis continues (producing a row whose author is the
sentinel), but this sentinel handling applies only to the issue author
field; a missing comment author identity instead raises an error. -/
theorem missing_issue_author_ghost (repo : String) (n : IssueNode)
    (cf : Nat → List Comment)
    (hn : n.author = none) (hy : n.year = FROM_YEAR) (hm : FROM_MONTH ≤ n.month)
    (hc : ∀ c ∈ cf n.number, (c.user).isSome = true) :
    ∃ rows s, calculateFirstResponseTimes repo [[n]] cf = Except.ok (rows, s) ∧
      ∃ r ∈ rows, r.author = ghostLogin := by
  have hpage : pageScan [n] = [mkIssue n] := by
    unfold pageScan
    rw [if_pos ⟨hy, hm⟩]
    rfl
  have hissues : getAllIssues [[n]] = [mkIssue n] := by
    show (List.map pageScan [[n]]).flatten = [mkIssue n]
    rw [List.map_cons, List.map_nil, hpage]
    rfl
  have hga : (mkIssue n).author = ghostLogin := by
    unfold mkIssue
    rw [hn]
    rfl
  have hgm : MAINTAINERS.contains (mkIssue n).author = false := by
    rw [hga]
    decide
  have hffr := findFirstResponse_ok (mkIssue n).author (cf (mkIssue n).number)
    (by exact hc)
  obtain ⟨r, hr⟩ : ∃ r, processIssue repo cf (mkIssue n) = Except.ok r := by
    cases hq : firstQualifying (mkIssue n).author (cf (mkIssue n).number) with
    | none => exact ⟨_, by unfold processIssue; rw [hffr, hq]⟩
    | some c => exact ⟨_, by unfold processIssue; rw [hffr, hq]⟩
  have hra : r.author = ghostLogin := by
    rw [processIssue_ok_author repo cf (mkIssue n) r hr]
    exact hga
  refine ⟨[r], mkSummary repo [r], ?_, r, List.mem_singleton.mpr rfl, hra⟩
  unfold calculateFirstResponseTimes
  rw [hissues]
  unfold buildRows
  rw [if_neg (by rw [hgm]; exact Bool.false_ne_true), hr]
  rfl

theorem missing_issue_author_ghost_witness :
    c8gNode.author = none ∧
    (∃ rows s, calculateFirstResponseTimes repoA [[c8gNode]] c8gCommentsFor =
        Except.ok (rows, s) ∧
      ∃ r ∈ rows, r.author = ghostLogin) :=
  ⟨rfl,
    missing_issue_author_ghost repoA c8gNode c8gCommentsFor rfl rfl
      (by decide) (by decide)⟩

/-- The accumulator invariant of the `runAll` loop: a successful run is the
in-order concatenation of successful per-repository analyses appended to the
accumulators. -/
theorem runAllGo_spec : ∀ repos accR accS rows sums,
    runAllGo repos accR accS = Except.ok (rows, sums) →
    ∃ parts : List (List Row × Summary),
      List.Forall₂ (fun rep p => analyze rep = Except.ok p) repos parts ∧
      rows = accR ++ (List.map Prod.fst parts).flatten ∧
      sums = accS ++ List.map Prod.snd parts := by
  intro repos
  induction repos with
  | nil =>
    intro accR accS rows sums h
    injection h with h1
    injection h1 with h2 h3
    refine ⟨[], List.Forall₂.nil, ?_, ?_⟩
    · rw [← h2]; simp
    · rw [← h3]; simp
  | cons rep rest ih =>
    intro accR accS rows sums h
    unfold runAllGo at h
    cases ha : analyze rep with
    | error e => rw [ha] at h; exact Except.noConfusion h
    | ok p =>
      obtain ⟨prows, ps⟩ := p
      rw [ha] at h
      obtain ⟨parts, hf2, hr, hs⟩ := ih (accR ++ prows) (accS ++ [ps]) rows sums h
      refine ⟨(prows, ps) :: parts, List.Forall₂.cons ha hf2, ?_, ?_⟩
      · rw [hr]
        simp [List.append_assoc]
      · rw [hs]
        simp

/-- C9: a successful top-level run analyses the configured repositories one
by one in configuration order: there is one successful per-repository result
per configured repository, in order (`List.Forall₂`), the summary list is
exactly the per-repository summaries in that order, and the combined row
list is the in-order concatenation of the per-repository row lists. -/
theorem runAll_preserves_order_and_concat (repos : List RepoInput)
    (rows : List Row) (sums : List Summary)
    (h : runAll repos = Except.ok (rows, sums)) :
    ∃ parts : List (List Row × Summary),
      List.Forall₂ (fun rep p => analyze rep = Except.ok p) repos parts ∧
      rows = (List.map Prod.fst parts).flatten ∧
      sums = List.map Prod.snd parts := by
  obtain ⟨parts, h1, h2, h3⟩ := runAllGo_spec repos [] [] rows sums h
  refine ⟨parts, h1, ?_, ?_⟩
  · simpa using h2
  · simpa using h3

theorem runAll_preserves_order_and_concat_witness :
    runAll [c9RepoOne, c9RepoTwo] =
      Except.ok (([] : List Row), [c9SummaryOne, c9SummaryTwo]) ∧
    (∃ parts : List (List Row × Summary),
      List.Forall₂ (fun rep p => analyze rep = Except.ok p)
        [c9RepoOne, c9RepoTwo] parts ∧
      ([] : List Row) = (List.map Prod.fst parts).flatten ∧
      [c9SummaryOne, c9SummaryTwo] = List.map Prod.snd parts) :=
  ⟨rfl,
    runAll_preserves_order_and_concat [c9RepoOne, c9RepoTwo] []
      [c9SummaryOne, c9SummaryTwo] rfl⟩

end IssueResponseTime
